import Mathlib

/-!
Verification development for the HomeassistantTCPBridge repository.

The definitions below are shallow embeddings of the Go sources:
  * `pkg/ha/client.go`    — upstream link client, translation engine (flattening)
  * `pkg/config/config.go`— configuration snapshot
  * the savant TCP server — downstream gateway and command dispatcher

JSON values decoded by `encoding/json` into `interface{}` are modelled by
`JValue`; JSON numbers are modelled as integers (every claim about numeric
attribute values concerns the integral values 1, 2 and 3, which Go's
`%v` verb prints without a decimal point, matching integer printing).
Go maps (`map[string]interface{}`, `map[string]string`) are modelled as
association lists with unique keys maintained by an overwriting insert;
a list order stands for one iteration order of the Go map.
-/

namespace Bridge

/-- A decoded JSON value, as produced by `encoding/json` unmarshalling into
`interface{}` (nil / bool / number / string / `[]interface{}` /
`map[string]interface{}`). -/
inductive JValue where
  | null : JValue
  | bool (b : Bool) : JValue
  | num (n : Int) : JValue
  | str (s : String) : JValue
  | arr (xs : List JValue) : JValue
  | obj (kvs : List (String × JValue)) : JValue

/-- The Go test `value == nil` on a decoded JSON value. -/
def JValue.isNull : JValue → Bool
  | .null => true
  | _ => false

/-- Sort rendered map entries by key, as Go's `fmt` package does when
printing a map value. -/
def sortByKey (l : List (String × String)) : List (String × String) :=
  l.insertionSort (fun a b => a.1 ≤ b.1)

mutual

/-- Rendering of a JSON value by Go's `fmt.Sprintf("%v", value)`:
`nil` prints `<nil>`, booleans print `true`/`false`, numbers decimally,
strings verbatim, slices as `[e1 e2 ...]`, and maps as `map[k1:v1 ...]`
with keys sorted. -/
def goFormat : JValue → String
  | .null => "<nil>"
  | .bool true => "true"
  | .bool false => "false"
  | .num n => toString n
  | .str s => s
  | .arr xs => "[" ++ String.intercalate " " (goFormatList xs) ++ "]"
  | .obj kvs =>
      "map[" ++
        String.intercalate " "
          ((sortByKey (goFormatPairs kvs)).map (fun p => p.1 ++ ":" ++ p.2)) ++
      "]"

def goFormatList : List JValue → List String
  | [] => []
  | x :: xs => goFormat x :: goFormatList xs

def goFormatPairs : List (String × JValue) → List (String × String)
  | [] => []
  | (k, v) :: xs => (k, goFormat v) :: goFormatPairs xs

end

/-- Association-list lookup, modelling Go map indexing `m[k]` with the
`(value, ok)` idiom. -/
def lookupA (m : List (String × String)) (k : String) : Option String :=
  (m.find? (fun p => p.1 = k)).map (fun p => p.2)

/-- Association-list overwriting insert, modelling Go map assignment
`m[k] = v`. -/
def insertKV {α : Type} (m : List (String × α)) (k : String) (v : α) :
    List (String × α) :=
  if (m.find? (fun p => p.1 = k)).isSome then
    m.map (fun p => if p.1 = k then (k, v) else p)
  else m ++ [(k, v)]

/-- The state of `ha.Client` (client.go) that the claims depend on:
the entity→alias map `substituteIDs`, the alias→entity map `idSubstitutes`,
the attribute `filter`, the command id counter, and the auth flag. -/
structure Client where
  substituteIDs : List (String × String)
  idSubstitutes : List (String × String)
  filter : List String
  idCounter : Int
  isAuth : Bool
deriving DecidableEq, Repr

/-- `ha.NewClient`: fresh maps, filter `["all"]`, id counter zero. -/
def NewClient : Client :=
  { substituteIDs := [], idSubstitutes := [], filter := ["all"],
    idCounter := 0, isAuth := false }

/-- `Client.SetFilter`: an empty filter is replaced by `["all"]`,
otherwise the new filter replaces the old wholesale. -/
def SetFilter (c : Client) (filter : List String) : Client :=
  if filter = [] then { c with filter := ["all"] }
  else { c with filter := filter }

/-- `Client.includedWithFilter`: true when the filter is empty or is
exactly `["all"]`, otherwise a linear membership scan. -/
def includedWithFilter (filter : List String) (key : String) : Bool :=
  if filter = [] ∨ filter = ["all"] then true
  else filter.contains key

/-- `Client.SetSubstituteIDs`: stores the entity→alias map and rebuilds
the alias→entity reverse map from scratch by iterating over it. -/
def SetSubstituteIDs (c : Client) (subs : List (String × String)) : Client :=
  { c with
    substituteIDs := subs,
    idSubstitutes := subs.foldl (fun m p => insertKV m p.2 p.1) [] }

/-- `Client.ResolveID`: map a potential alias back to the real entity id;
unmapped ids pass through unchanged. -/
def ResolveID (c : Client) (id : String) : String :=
  (lookupA c.idSubstitutes id).getD id

/-- `Client.getSubstituteID`: the alias registered for an entity id,
or the empty string. -/
def getSubstituteID (c : Client) (entityID : String) : String :=
  (lookupA c.substituteIDs entityID).getD ""

/-- One flattened line of the downstream wire format, before serialization
(`sendSavantUpdate`'s output): entity id, substitute id, parent-key chain,
attribute name and the already-`%v`-rendered attribute value. -/
structure WireMessage where
  entityId : String
  substituteId : String
  parents : List String
  attrName : String
  attrValue : String
deriving DecidableEq, Repr

/-- Serialization of a `WireMessage`
(`fmt.Sprintf` in `sendSavantUpdate`): fixed key order, `_`-joined
parent keys, newline terminated. -/
def renderWire (m : WireMessage) : String :=
  "entity_id=" ++ m.entityId ++
  "&substitute_id=" ++ m.substituteId ++
  "&parent_keys=" ++ String.intercalate "_" m.parents ++
  "&attr_name=" ++ m.attrName ++
  "&attr_value=" ++ m.attrValue ++ "\n"

/-- `Client.sendSavantUpdate`: drops nil values and filtered-out attribute
names; replaces a numeric brightness of 1 or 2 by 3; renders the value with
`%v` and emits one line carrying the session's substitute id. -/
def sendSavantUpdate (c : Client) (entityID : String) (parents : List String)
    (attrName : String) (value : JValue) : List WireMessage :=
  if value.isNull || !(includedWithFilter c.filter attrName) then []
  else
    let value :=
      if attrName = "brightness" then
        match value with
        | .num n => if n = 1 ∨ n = 2 then JValue.num 3 else JValue.num n
        | v => v
      else value
    [{ entityId := entityID,
       substituteId := getSubstituteID c entityID,
       parents := parents,
       attrName := attrName,
       attrValue := goFormat value }]

/-- The per-level merged-attributes entries of `processMap`: every key/value
pair, filtered or not, rendered as `key:value` with the raw value. -/
def mergedAttrs (data : List (String × JValue)) : List String :=
  data.map (fun p => p.1 ++ ":" ++ goFormat p.2)

mutual

/-- `Client.processMap`: process each key/value pair in iteration order
(the list order models one Go map iteration order), then — if
`"attributes"` passes the filter — emit one extra line whose attr name is
the enclosing entity id and whose value is the merged `key:value` list
joined with commas. -/
def processMap (c : Client) (entityID : String)
    (data : List (String × JValue)) (parents : List String) : List WireMessage :=
  processPairs c entityID data parents ++
  (if includedWithFilter c.filter "attributes" then
     sendSavantUpdate c entityID (parents ++ ["attributes"]) entityID
       (JValue.str (String.intercalate "," (mergedAttrs data)))
   else [])

/-- The loop body of `Client.processMap`: keys that fail the filter are
skipped; mapping values recurse with the key appended to the parent chain;
plain sequences are joined with commas and emitted; scalars are emitted. -/
def processPairs (c : Client) (entityID : String) :
    List (String × JValue) → List String → List WireMessage
  | [], _ => []
  | (k, v) :: rest, parents =>
      (if ¬ includedWithFilter c.filter k then []
       else
         match v with
         | .obj kvs => processMap c entityID kvs (parents ++ [k])
         | .arr xs =>
             sendSavantUpdate c entityID (parents ++ [k]) k
               (JValue.str (String.intercalate "," (goFormatList xs)))
         | v => sendSavantUpdate c entityID (parents ++ [k]) k v) ++
      processPairs c entityID rest parents

end

/-- A `state_changed` event's `new_state` object, as read by
`flattenAndSend`: the entity id (empty when absent or not a string), the
`state` member when present, and the `attributes` member when present and
a mapping. -/
structure StateEvent where
  entityId : String
  state : Option JValue
  attributes : Option (List (String × JValue))

/-- `Client.flattenAndSend`: emit the top-level state when present, then
process the attributes mapping under the parent chain `["attributes"]`. -/
def flattenAndSend (c : Client) (ev : StateEvent) : List WireMessage :=
  (match ev.state with
   | some s => sendSavantUpdate c ev.entityId [] "state" s
   | none => []) ++
  (match ev.attributes with
   | some attrs => processMap c ev.entityId attrs ["attributes"]
   | none => [])

/-! ### Upstream commands (`SendCommand` and its callers, client.go) -/

/-- A Go service-data value (`interface{}`): string, integer, float
(modelled as a rational) or boolean. -/
inductive SVal where
  | str (s : String) : SVal
  | int (n : Int) : SVal
  | rat (q : Rat) : SVal
  | bool (b : Bool) : SVal
deriving DecidableEq, Repr

/-- The body of an upstream command before the `"id"` field is attached. -/
inductive Payload where
  | ping : Payload
  | subscribeEvents : Payload
  | subscribeEntities (entityIds : List String) : Payload
  | callService (domain service entityId : String)
      (serviceData : Option (List (String × SVal))) : Payload
deriving DecidableEq, Repr

/-- A command as written to the upstream link: the assigned integer id
plus the payload. -/
structure SentCommand where
  id : Int
  payload : Payload
deriving DecidableEq, Repr

/-- `Client.SendCommand`: atomically increment the id counter and attach
the new value as the command's `"id"`. The counter lives on the `Client`
and is never reset by the connect/cleanup path. -/
def SendCommand (c : Client) (p : Payload) : Client × SentCommand :=
  ({ c with idCounter := c.idCounter + 1 },
   { id := c.idCounter + 1, payload := p })

/-- `Client.SubscribeEvents`. -/
def SubscribeEvents (c : Client) : Client × List SentCommand :=
  let (c', cmd) := SendCommand c Payload.subscribeEvents
  (c', [cmd])

/-- `Client.SubscribeEntities`: an empty entity list is a no-op. -/
def SubscribeEntities (c : Client) (entityIDs : List String) :
    Client × List SentCommand :=
  if entityIDs = [] then (c, [])
  else
    let (c', cmd) := SendCommand c (Payload.subscribeEntities entityIDs)
    (c', [cmd])

/-- `Server.callService`: build a `call_service` payload; a nil data map
omits the `service_data` member. -/
def callService (c : Client) (domain service entityID : String)
    (data : Option (List (String × SVal))) : Client × List SentCommand :=
  let (c', cmd) := SendCommand c (Payload.callService domain service entityID data)
  (c', [cmd])

/-! ### Go string primitives used by the gateway and dispatcher -/

def goSplitAux (sep : Char) : List Char → List Char → List String
  | [], acc => [String.mk acc.reverse]
  | ch :: cs, acc =>
      if ch = sep then String.mk acc.reverse :: goSplitAux sep cs []
      else goSplitAux sep cs (ch :: acc)

/-- `strings.Split` for a one-character separator: `""` yields `[""]`,
and every separator occurrence starts a new field. -/
def goSplit (sep : Char) (s : String) : List String :=
  goSplitAux sep s.data []

/-- `strings.SplitN(s, sep, 2)` for a one-character separator: split at
the first occurrence only; a string without the separator stays whole. -/
def goSplitN2 (sep : Char) (s : String) : List String :=
  let pre := s.data.takeWhile (fun ch => ch ≠ sep)
  match s.data.drop pre.length with
  | [] => [s]
  | _ :: tail => [String.mk pre, String.mk tail]

/-- `strings.ToLower`, character-wise. -/
def goToLower (s : String) : String :=
  String.mk (s.data.map Char.toLower)

/-- `strings.TrimSpace`: drop leading and trailing whitespace. -/
def goTrimSpace (s : String) : String :=
  String.mk (((s.data.dropWhile Char.isWhitespace).reverse.dropWhile
    Char.isWhitespace).reverse)

/-! ### Configuration (`pkg/config/config.go`) -/

/-- The `options.json` fields (`config.Options`). -/
structure Options where
  clientIPWhitelist : String
  enableGenericCallService : Bool
  useTLS : Bool
deriving DecidableEq, Repr

/-- The immutable startup snapshot (`config.Config`). -/
structure Config where
  supervisorToken : String
  haWebSocketURL : String
  options : Options
  whitelist : List String
deriving DecidableEq, Repr

/-- The whitelist parsing step of `config.Load`: split the comma-separated
option on commas, trim whitespace, drop empty entries. -/
def parseWhitelist (s : String) : List String :=
  if s = "" then []
  else ((goSplit ',' s).map (fun p => goTrimSpace p)).filter (fun t => t ≠ "")

/-- `config.Load` restricted to its pure part: assemble the snapshot from
the token and the decoded options. -/
def LoadConfig (token : String) (opts : Options) : Config :=
  { supervisorToken := token,
    haWebSocketURL := "ws://supervisor/core/api/websocket",
    options := opts,
    whitelist := parseWhitelist opts.clientIPWhitelist }

/-! ### Downstream gateway (`savant.Server`) -/

/-- The savant TCP server. Note which configuration it retains: the port,
the whitelist and the shared upstream client — `Options`'s
`enable_generic_call_service` flag is not kept anywhere. Connected peers
are identified by a `Nat` connection id. -/
structure Server where
  port : Int
  whitelist : List String
  clients : List Nat
  haClient : Client
deriving DecidableEq, Repr

/-- `savant.NewServer`: retains `cfg.Whitelist` and the client; starts
with no connected peers. -/
def NewServer (port : Int) (cfg : Config) (haClient : Client) : Server :=
  { port := port, whitelist := cfg.whitelist, clients := [], haClient := haClient }

/-- The whitelist check at the top of `Server.handleConnection`: an empty
whitelist admits every peer, otherwise the peer IP must appear in it. -/
def allowedIP (whitelist : List String) (ip : String) : Bool :=
  if whitelist = [] then true else whitelist.contains ip

/-- `Server.handleConnection` up to the start of the read loop: a rejected
peer is never registered in `clients` (and the function returns, closing
the socket, before anything is written); an admitted peer is registered. -/
def handleConnection (s : Server) (connId : Nat) (ip : String) : Server × Bool :=
  if allowedIP s.whitelist ip then
    ({ s with clients := s.clients ++ [connId] }, true)
  else (s, false)

/-- `Server.Broadcast`: write the message to every registered connection. -/
def Broadcast (clients : List Nat) (msg : String) : List (Nat × String) :=
  clients.map (fun cid => (cid, msg))

/-! ### Command dispatcher (`Server.handleCommand`) -/

def allDigits (cs : List Char) : Bool :=
  cs.all (fun c => c.isDigit)

def digitsToNat (cs : List Char) : Nat :=
  cs.foldl (fun n c => n * 10 + (c.toNat - 48)) 0

/-- `strconv.Atoi` as used by the dispatcher: the error is ignored and
the zero result of a failed parse is used. -/
def goAtoi (s : String) : Int :=
  let signBody : Int × List Char :=
    match s.data with
    | '-' :: r => (-1, r)
    | '+' :: r => (1, r)
    | r => (1, r)
  if signBody.2 ≠ [] ∧ allDigits signBody.2 = true then
    signBody.1 * digitsToNat signBody.2
  else 0

/-- `strconv.ParseFloat` as used by the dispatcher (error ignored, zero on
failure), for plain decimal forms `[+-]digits[.digits]`; the exponent and
hexadecimal forms of `ParseFloat` are outside the modelled grammar. -/
def goParseFloat (s : String) : Rat :=
  let cs := s.data
  let signBody : Int × List Char :=
    match cs with
    | '-' :: r => (-1, r)
    | '+' :: r => (1, r)
    | r => (1, r)
  let sign := signBody.1
  let body := signBody.2
  let ip := body.takeWhile (fun c => c ≠ '.')
  let tail := body.drop ip.length
  let fp : Option (List Char) :=
    match tail with
    | [] => some []
    | '.' :: r => if r.contains '.' then none else some r
    | _ => none
  match fp with
  | none => 0
  | some f =>
      if allDigits ip && allDigits f && !(ip.isEmpty && f.isEmpty) then
        ((sign * ((digitsToNat ip : Int) * 10 ^ f.length + digitsToNat f) : Int) : Rat) /
          ((10 : Rat) ^ f.length)
      else 0

/-- The `substitute_ids` argument loop, with the map and id-list
accumulated left to right as in the Go `for` loop. -/
def buildSubsAux : List String → List (String × String) → List String →
    List (String × String) × List String
  | a :: e :: rest, m, ids => buildSubsAux rest (insertKV m e a) (ids ++ [e])
  | _, m, ids => (m, ids)

/-- The `substitute_ids` argument loop: alternating (alias, entity) pairs
are stored as `subs[entity] = alias`, collecting the entity ids; a
trailing unpaired argument is ignored. -/
def buildSubs (args : List String) : List (String × String) × List String :=
  buildSubsAux args [] []

/-- The `call_service` key=value argument loop: each extra argument is
split at its first `=`; malformed arguments are skipped. -/
def parseKVArgs (rest : List String) : List (String × SVal) :=
  rest.foldl
    (fun m kv =>
      match goSplitN2 '=' kv with
      | [k, v] => insertKV m k (SVal.str v)
      | _ => m)
    []

/-- The domain-action registry of `Server.handleCommand` (everything after
the three control verbs): `cmd` has already had its first argument passed
through alias resolution. Verbs with missing arguments, the
`media_player_play_media` stub and unknown verbs are logged and dropped. -/
def dispatchRegistry (c : Client) (cmd : String) (args : List String) :
    Client × List SentCommand :=
  if cmd = "subscribe_events" then SubscribeEvents c
  else if cmd = "call_service" then
    match args with
    | domain :: service :: entityID :: rest =>
        let data := if rest = [] then none else some (parseKVArgs rest)
        callService c domain service entityID data
    | _ => (c, [])
  else if cmd = "fan_on" then
    match args with
    | a0 :: a1 :: _ => callService c "fan" "turn_on" a0 (some [("speed", SVal.str a1)])
    | [a0] => callService c "fan" "turn_on" a0 none
    | _ => (c, [])
  else if cmd = "fan_off" then
    match args with
    | a0 :: _ => callService c "fan" "turn_off" a0 none
    | _ => (c, [])
  else if cmd = "fan_set" then
    match args with
    | a0 :: a1 :: _ => callService c "fan" "turn_on" a0 (some [("speed", SVal.str a1)])
    | _ => (c, [])
  else if cmd = "button_press" then
    match args with
    | a0 :: _ => callService c "button" "press" a0 none
    | _ => (c, [])
  else if cmd = "alarm_arm_away" then
    match args with
    | a0 :: a1 :: _ =>
        callService c "alarm_control_panel" "alarm_arm_away" a0 (some [("code", SVal.str a1)])
    | [a0] => callService c "alarm_control_panel" "alarm_arm_away" a0 (some [])
    | _ => (c, [])
  else if cmd = "alarm_arm_home" then
    match args with
    | a0 :: a1 :: _ =>
        callService c "alarm_control_panel" "alarm_arm_home" a0 (some [("code", SVal.str a1)])
    | [a0] => callService c "alarm_control_panel" "alarm_arm_home" a0 (some [])
    | _ => (c, [])
  else if cmd = "alarm_disarm" then
    match args with
    | a0 :: a1 :: _ =>
        callService c "alarm_control_panel" "alarm_disarm" a0 (some [("code", SVal.str a1)])
    | [a0] => callService c "alarm_control_panel" "alarm_disarm" a0 (some [])
    | _ => (c, [])
  else if cmd = "remote_on" then
    match args with
    | a0 :: _ => callService c "remote" "turn_on" a0 none
    | _ => (c, [])
  else if cmd = "remote_off" then
    match args with
    | a0 :: _ => callService c "remote" "turn_off" a0 none
    | _ => (c, [])
  else if cmd = "remote_send_command" then
    match args with
    | a0 :: a1 :: _ => callService c "remote" "send_command" a0 (some [("command", SVal.str a1)])
    | _ => (c, [])
  else if cmd = "switch_on" then
    match args with
    | a0 :: _ => callService c "light" "turn_on" a0 none
    | _ => (c, [])
  else if cmd = "switch_off" then
    match args with
    | a0 :: _ => callService c "light" "turn_off" a0 none
    | _ => (c, [])
  else if cmd = "socket_on" then
    match args with
    | a0 :: _ => callService c "switch" "turn_on" a0 none
    | _ => (c, [])
  else if cmd = "socket_off" then
    match args with
    | a0 :: _ => callService c "switch" "turn_off" a0 none
    | _ => (c, [])
  else if cmd = "dimmer_set" then
    match args with
    | a0 :: a1 :: _ =>
        if goAtoi a1 = 0 then callService c "light" "turn_off" a0 none
        else callService c "light" "turn_on" a0 (some [("brightness_pct", SVal.int (goAtoi a1))])
    | _ => (c, [])
  else if cmd = "shade_set" then
    match args with
    | a0 :: a1 :: _ =>
        callService c "cover" "set_cover_position" a0 (some [("position", SVal.int (goAtoi a1))])
    | _ => (c, [])
  else if cmd = "open_garage_door" then
    match args with
    | a0 :: _ => callService c "cover" "open_cover" a0 none
    | _ => (c, [])
  else if cmd = "close_garage_door" then
    match args with
    | a0 :: _ => callService c "cover" "close_cover" a0 none
    | _ => (c, [])
  else if cmd = "toggle_garage_door" then
    match args with
    | a0 :: _ => callService c "cover" "toggle" a0 none
    | _ => (c, [])
  else if cmd = "lock_lock" then
    match args with
    | a0 :: _ => callService c "lock" "lock" a0 none
    | _ => (c, [])
  else if cmd = "unlock_lock" then
    match args with
    | a0 :: _ => callService c "lock" "unlock" a0 none
    | _ => (c, [])
  else if cmd = "climate_set_hvac_mode" then
    match args with
    | a0 :: a1 :: _ => callService c "climate" "set_hvac_mode" a0 (some [("hvac_mode", SVal.str a1)])
    | _ => (c, [])
  else if cmd = "climate_set_single" then
    match args with
    | a0 :: a1 :: _ =>
        callService c "climate" "set_temperature" a0
          (some [("temperature", SVal.rat (goParseFloat a1))])
    | _ => (c, [])
  else if cmd = "climate_set_temperature_range" then
    match args with
    | a0 :: a1 :: a2 :: _ =>
        callService c "climate" "set_temperature" a0
          (some [("target_temp_low", SVal.rat (goParseFloat a1)),
                 ("target_temp_high", SVal.rat (goParseFloat a2))])
    | _ => (c, [])
  else if cmd = "media_player_play" then
    match args with
    | a0 :: _ => callService c "media_player" "media_play" a0 none
    | _ => (c, [])
  else if cmd = "media_player_play_pause" then
    match args with
    | a0 :: _ => callService c "media_player" "toggle" a0 none
    | _ => (c, [])
  else if cmd = "media_player_pause" then
    match args with
    | a0 :: _ => callService c "media_player" "media_pause" a0 none
    | _ => (c, [])
  else if cmd = "media_player_stop" then
    match args with
    | a0 :: _ => callService c "media_player" "media_stop" a0 none
    | _ => (c, [])
  else if cmd = "media_player_next_track" then
    match args with
    | a0 :: _ => callService c "media_player" "media_next_track" a0 none
    | _ => (c, [])
  else if cmd = "media_player_previous_track" then
    match args with
    | a0 :: _ => callService c "media_player" "media_previous_track" a0 none
    | _ => (c, [])
  else if cmd = "media_player_volume_up" then
    match args with
    | a0 :: _ => callService c "media_player" "volume_up" a0 none
    | _ => (c, [])
  else if cmd = "media_player_volume_down" then
    match args with
    | a0 :: _ => callService c "media_player" "volume_down" a0 none
    | _ => (c, [])
  else if cmd = "media_player_set_volume" then
    match args with
    | a0 :: a1 :: _ =>
        callService c "media_player" "volume_set" a0
          (some [("volume_level", SVal.rat (((goAtoi a1 : Int) : Rat) / 100))])
    | _ => (c, [])
  else if cmd = "media_player_select_source" then
    match args with
    | a0 :: a1 :: _ =>
        callService c "media_player" "select_source" a0 (some [("source", SVal.str a1)])
    | _ => (c, [])
  else if cmd = "media_player_clear_playlist" then
    match args with
    | a0 :: _ => callService c "media_player" "clear_playlist" a0 none
    | _ => (c, [])
  else if cmd = "media_player_shuffle_set" then
    match args with
    | a0 :: a1 :: _ =>
        callService c "media_player" "shuffle_set" a0
          (some [("shuffle", SVal.bool (goToLower a1 = "true"))])
    | _ => (c, [])
  else if cmd = "media_player_repeat_set" then
    match args with
    | a0 :: a1 :: _ =>
        callService c "media_player" "repeat_set" a0 (some [("repeat", SVal.str a1)])
    | _ => (c, [])
  else (c, [])

/-- `Server.handleCommand`: split the line on commas; the three control
verbs mutate the shared client (and possibly subscribe); every other verb
has its first argument passed through `ResolveID` and is dispatched
through the registry. Note that no configuration flag is consulted
anywhere on the `call_service` path. -/
def handleCommand (c : Client) (cmdStr : String) : Client × List SentCommand :=
  match goSplit ',' cmdStr with
  | [] => (c, [])
  | cmd :: args =>
      if cmd = "substitute_ids" then
        let (subs, haIDs) := buildSubs args
        SubscribeEntities (SetSubstituteIDs c subs) haIDs
      else if cmd = "state_filter" then (SetFilter c args, [])
      else if cmd = "subscribe_entity" then SubscribeEntities c args
      else
        let args :=
          match args with
          | a0 :: rest => ResolveID c a0 :: rest
          | [] => []
        dispatchRegistry c cmd args

/-- `Server.handleCommand` at the server level: the one shared
`haClient` is updated in place. -/
def serverHandleCommand (s : Server) (line : String) : Server × List SentCommand :=
  let (c', cmds) := handleCommand s.haClient line
  ({ s with haClient := c' }, cmds)

/-- The serialized lines produced for one upstream state event (the
`onMessage` callback renders each `WireMessage` and hands it to
`Broadcast`). -/
def eventLines (s : Server) (ev : StateEvent) : List String :=
  (flattenAndSend s.haClient ev).map renderWire

/-- All socket writes caused by one upstream state event: every line is
broadcast to every registered connection. -/
def eventWrites (s : Server) (ev : StateEvent) : List (Nat × String) :=
  (eventLines s ev).flatMap (fun l => Broadcast s.clients l)

/-- The lines a given connection receives from a list of writes. -/
def writesTo (ws : List (Nat × String)) (cid : Nat) : List String :=
  ws.filterMap (fun p => if p.1 = cid then some p.2 else none)

/-! ### Upstream link lifecycle (`connectLoop`, `readLoop`, `pingLoop`) -/

/-- The connection-lifecycle state visible to the keepalive logic:
whether a socket is open (`conn != nil`), whether authentication
succeeded (`isAuth`), and whether a reconnect has been signalled on
`reconnectChan`. -/
structure LinkState where
  connected : Bool
  isAuth : Bool
  reconnecting : Bool
deriving DecidableEq, Repr

/-- The discrete events the Go goroutines react to: a 30s ticker firing
in `pingLoop`, an inbound message delivered by `readLoop`, and a read
error ending `readLoop`. -/
inductive LinkEvent where
  | tick30 : LinkEvent
  | inbound : LinkEvent
  | readError : LinkEvent
deriving DecidableEq, Repr

/-- One event step of the Go client. `tick30` (`pingLoop`) sends a ping
when connected and authenticated and changes nothing else — no response
timeout is armed. An inbound message is handled and changes none of the
lifecycle state. A read error makes `readLoop` return, signalling
`reconnectChan`. The returned boolean reports whether a ping was sent. -/
def linkStep (st : LinkState) : LinkEvent → LinkState × Bool
  | .tick30 => (st, st.connected && st.isAuth)
  | .inbound => (st, false)
  | .readError => ({ st with connected := false, reconnecting := true }, false)

/-- Run the link over a sequence of events. -/
def runLink (st : LinkState) : List LinkEvent → LinkState
  | [] => st
  | e :: es => runLink (linkStep st e).1 es

/-! ### Command ids over the client lifetime (`SendCommand`, `connectLoop`) -/

/-- The client-lifecycle actions relevant to command ids: sending a
command, and a disconnect/reconnect cycle (`cleanup` + `connect`), which
resets the auth flag but does not touch `idCounter`. -/
inductive ClientAction where
  | send (p : Payload) : ClientAction
  | reconnect : ClientAction
deriving DecidableEq, Repr

/-- Apply one lifecycle action; emitted command ids are returned. -/
def applyAction (c : Client) : ClientAction → Client × List Int
  | .send p =>
      let (c', cmd) := SendCommand c p
      (c', [cmd.id])
  | .reconnect => ({ c with isAuth := false }, [])

/-- Run a sequence of lifecycle actions, collecting every id assigned to
a sent command, in order. -/
def runActions : Client → List ClientAction → Client × List Int
  | c, [] => (c, [])
  | c, a :: as =>
      let (c', ids) := applyAction c a
      let (c'', rest) := runActions c' as
      (c'', ids ++ rest)

/-- The number of send actions in a trace. -/
def numSends (as : List ClientAction) : Nat :=
  as.countP (fun a => match a with | .send _ => true | _ => false)

/-! ## Helper lemmas -/

/-- Every message emitted by `sendSavantUpdate` carries the requested
attribute name, and that name passes the filter. -/
theorem mem_sendSavantUpdate {c : Client} {eid : String} {ps : List String}
    {name : String} {v : JValue} {m : WireMessage}
    (h : m ∈ sendSavantUpdate c eid ps name v) :
    m.attrName = name ∧ includedWithFilter c.filter name = true := by
  unfold sendSavantUpdate at h
  split at h
  · simp at h
  · next hcond =>
    simp only [List.mem_singleton] at h
    subst h
    refine ⟨rfl, ?_⟩
    simp only [Bool.or_eq_true, Bool.not_eq_true', not_or] at hcond
    simpa using hcond.2

/-- `sendSavantUpdate` emits exactly one message when the value is not
null and the attribute name passes the filter. -/
theorem sendSavantUpdate_eq_single {c : Client} {eid : String} {ps : List String}
    {name : String} {v : JValue}
    (hv : v.isNull = false) (hf : includedWithFilter c.filter name = true) :
    ∃ val, sendSavantUpdate c eid ps name v =
      [{ entityId := eid, substituteId := getSubstituteID c eid,
         parents := ps, attrName := name, attrValue := val }] := by
  unfold sendSavantUpdate
  rw [hv, hf]
  simp

/-- `sendSavantUpdate` emits a message named after the attribute when the
value is not null and the name passes the filter. -/
theorem mem_sendSavantUpdate_self {c : Client} {eid : String} {ps : List String}
    {name : String} {v : JValue}
    (hv : v.isNull = false) (hf : includedWithFilter c.filter name = true) :
    ∃ m ∈ sendSavantUpdate c eid ps name v, m.attrName = name := by
  obtain ⟨val, hval⟩ := sendSavantUpdate_eq_single hv hf
  rw [hval]
  exact ⟨_, List.mem_singleton.2 rfl, rfl⟩

/-- Unfolding lemma for `processPairs` on a cons cell, stated for an
arbitrary value so that it can be rewritten before case analysis. -/
theorem processPairs_cons (c : Client) (eid : String) (k : String) (v : JValue)
    (rest : List (String × JValue)) (parents : List String) :
    processPairs c eid ((k, v) :: rest) parents =
      (if ¬ includedWithFilter c.filter k then []
       else
         match v with
         | .obj kvs => processMap c eid kvs (parents ++ [k])
         | .arr xs =>
             sendSavantUpdate c eid (parents ++ [k]) k
               (JValue.str (String.intercalate "," (goFormatList xs)))
         | v => sendSavantUpdate c eid (parents ++ [k]) k v) ++
      processPairs c eid rest parents := by
  cases v <;> simp [processPairs]

/-- Filter soundness for the loop body of `processMap`: every emitted
message's attribute name passes the filter, at every nesting depth. -/
theorem processPairs_sound (c : Client) (eid : String) :
    ∀ (data : List (String × JValue)) (parents : List String),
      ∀ m ∈ processPairs c eid data parents,
        includedWithFilter c.filter m.attrName = true := by
  refine processPairs.induct c eid
    (fun data parents => ∀ m ∈ processMap c eid data parents,
      includedWithFilter c.filter m.attrName = true)
    (fun data parents => ∀ m ∈ processPairs c eid data parents,
      includedWithFilter c.filter m.attrName = true)
    ?_ ?_ ?_
  · intro data parents h2 m hm
    rw [processMap] at hm
    rcases List.mem_append.1 hm with h | h
    · exact h2 m h
    · split at h
      · obtain ⟨h1, h2'⟩ := mem_sendSavantUpdate h
        rw [h1]; exact h2'
      · simp at h
  · intro parents m hm
    simp [processPairs] at hm
  · intro k v rest parents hv ih m hm
    rw [processPairs_cons] at hm
    rcases List.mem_append.1 hm with h | h
    · split at h
      · simp at h
      · cases v with
        | obj kvs => exact hv m h
        | arr xs =>
            obtain ⟨h1, h2⟩ := mem_sendSavantUpdate h
            rw [h1]; exact h2
        | null =>
            obtain ⟨h1, h2⟩ := mem_sendSavantUpdate h
            rw [h1]; exact h2
        | bool b =>
            obtain ⟨h1, h2⟩ := mem_sendSavantUpdate h
            rw [h1]; exact h2
        | num n =>
            obtain ⟨h1, h2⟩ := mem_sendSavantUpdate h
            rw [h1]; exact h2
        | str s =>
            obtain ⟨h1, h2⟩ := mem_sendSavantUpdate h
            rw [h1]; exact h2
    · exact ih m h

/-- Filter soundness for `processMap`. -/
theorem processMap_sound (c : Client) (eid : String)
    (data : List (String × JValue)) (parents : List String) :
    ∀ m ∈ processMap c eid data parents,
      includedWithFilter c.filter m.attrName = true := by
  intro m hm
  rw [processMap] at hm
  rcases List.mem_append.1 hm with h | h
  · exact processPairs_sound c eid data parents m h
  · split at h
    · obtain ⟨h1, h2⟩ := mem_sendSavantUpdate h
      rw [h1]; exact h2
    · simp at h

/-- Filter soundness for the whole flattening: every emitted message's
attribute name passes the filter. -/
theorem flattenAndSend_sound (c : Client) (ev : StateEvent) :
    ∀ m ∈ flattenAndSend c ev,
      includedWithFilter c.filter m.attrName = true := by
  intro m hm
  unfold flattenAndSend at hm
  rcases List.mem_append.1 hm with h | h
  · match hs : ev.state with
    | some s =>
        rw [hs] at h
        obtain ⟨h1, h2⟩ := mem_sendSavantUpdate h
        rw [h1]; exact h2
    | none => rw [hs] at h; simp at h
  · match ha : ev.attributes with
    | some attrs =>
        rw [ha] at h
        exact processMap_sound c ev.entityId attrs ["attributes"] m h
    | none => rw [ha] at h; simp at h

/-- Filter completeness at one level of the loop: a key whose value is
neither null nor a nested mapping and which passes the filter produces a
message named after it. -/
theorem processPairs_complete (c : Client) (eid : String) (parents : List String)
    (k : String) (v : JValue) (hv : v.isNull = false)
    (hobj : ∀ kvs, v ≠ JValue.obj kvs)
    (hf : includedWithFilter c.filter k = true) :
    ∀ data, (k, v) ∈ data →
      ∃ m ∈ processPairs c eid data parents, m.attrName = k := by
  intro data hmem
  induction data with
  | nil => simp at hmem
  | cons hd tl ih =>
    obtain ⟨k', v'⟩ := hd
    rw [processPairs_cons]
    rcases List.mem_cons.1 hmem with heq | htl
    · injection heq with h1 h2
      subst h1; subst h2
      rw [if_neg (fun hcon => hcon hf)]
      cases v with
      | obj kvs => exact absurd rfl (hobj kvs)
      | null => simp [JValue.isNull] at hv
      | arr xs =>
          exact Exists.imp (fun m hp => ⟨List.mem_append_left _ hp.1, hp.2⟩)
            (mem_sendSavantUpdate_self
              (v := JValue.str (String.intercalate "," (goFormatList xs))) rfl hf)
      | bool b =>
          exact Exists.imp (fun m hp => ⟨List.mem_append_left _ hp.1, hp.2⟩)
            (mem_sendSavantUpdate_self (v := JValue.bool b) rfl hf)
      | num n =>
          exact Exists.imp (fun m hp => ⟨List.mem_append_left _ hp.1, hp.2⟩)
            (mem_sendSavantUpdate_self (v := JValue.num n) rfl hf)
      | str s =>
          exact Exists.imp (fun m hp => ⟨List.mem_append_left _ hp.1, hp.2⟩)
            (mem_sendSavantUpdate_self (v := JValue.str s) rfl hf)
    · obtain ⟨m, hm, hname⟩ := ih htl
      exact ⟨m, List.mem_append_right _ hm, hname⟩

/-- Filter completeness for `processMap` at the top level of a mapping. -/
theorem processMap_complete (c : Client) (eid : String) (parents : List String)
    (k : String) (v : JValue) (data : List (String × JValue))
    (hmem : (k, v) ∈ data) (hv : v.isNull = false)
    (hobj : ∀ kvs, v ≠ JValue.obj kvs)
    (hf : includedWithFilter c.filter k = true) :
    ∃ m ∈ processMap c eid data parents, m.attrName = k := by
  obtain ⟨m, hm, hname⟩ := processPairs_complete c eid parents k v hv hobj hf data hmem
  rw [processMap]
  exact ⟨m, List.mem_append_left _ hm, hname⟩

/-! ## Claim C1 -/

/-- Claim C1 (amended): every WireMessage emitted by flattening a
StateEvent has an attr_name that passes the active AttributeFilter
(member of F, or F = the sentinel ["all"]); and for a top-level key K of
the attributes mapping whose value is neither null nor a nested mapping,
a WireMessage with attr_name K is emitted iff K passes the filter. The
original biconditional fails in the "if" direction for keys nested below
a filtered-out parent, for mapping-valued keys (which emit only their
children and a merged line named after the entity id), and for
null-valued keys. -/
theorem C1_filter_gating (c : Client) (ev : StateEvent) :
    (∀ m ∈ flattenAndSend c ev, includedWithFilter c.filter m.attrName = true) ∧
    (∀ (attrs : List (String × JValue)) (k : String) (v : JValue),
      ev.attributes = some attrs → (k, v) ∈ attrs →
      v.isNull = false → (∀ kvs, v ≠ JValue.obj kvs) →
      ((∃ m ∈ flattenAndSend c ev, m.attrName = k) ↔
        includedWithFilter c.filter k = true)) := by
  constructor
  · exact flattenAndSend_sound c ev
  · intro attrs k v ha hmem hv hobj
    constructor
    · rintro ⟨m, hm, hname⟩
      have hs := flattenAndSend_sound c ev m hm
      rw [hname] at hs
      exact hs
    · intro hf
      obtain ⟨m, hm, hname⟩ :=
        processMap_complete c ev.entityId ["attributes"] k v attrs hmem hv hobj hf
      refine ⟨m, ?_, hname⟩
      unfold flattenAndSend
      rw [ha]
      exact List.mem_append_right _ hm

/-- Claim C1 counterexample: with the active filter ["inner"], the nested
key "inner" is a member of the filter, yet flattening emits no
WireMessage at all — the filtered-out parent key "outer" is never
descended into — refuting the claimed biconditional at nested depth. -/
theorem C1_counterexample :
    includedWithFilter ["inner"] "inner" = true ∧
    flattenAndSend { NewClient with filter := ["inner"] }
      { entityId := "e", state := none,
        attributes := some [("outer", JValue.obj [("inner", JValue.num 5)])] } = [] := by
  constructor
  · rfl
  · simp [flattenAndSend, processMap, processPairs, sendSavantUpdate, includedWithFilter,
      mergedAttrs, getSubstituteID, lookupA, NewClient, JValue.isNull]

/-- Witness for C1_filter_gating at a concrete client and event. -/
theorem C1_filter_gating_witness :
    ∃ m ∈ flattenAndSend { NewClient with filter := ["color"] }
      { entityId := "e", state := none,
        attributes := some [("color", JValue.str "red")] },
      m.attrName = "color" :=
  ((C1_filter_gating { NewClient with filter := ["color"] }
      { entityId := "e", state := none,
        attributes := some [("color", JValue.str "red")] }).2
    [("color", JValue.str "red")] "color" (JValue.str "red")
    rfl (List.mem_singleton.2 rfl) rfl (fun _ h => JValue.noConfusion h)).mpr rfl

/-! ## Claim C2 -/

/-- Claim C2: whenever `sendSavantUpdate` emits a message for attr_name
"brightness", the emitted attr_value is "3" when the raw numeric value is
1 or 2 and the `%v` rendering of the raw value otherwise; and the
per-level merged-attributes list always carries the raw, untransformed
rendering of every key/value pair. -/
theorem C2_brightness_clamp :
    (∀ (c : Client) (eid : String) (ps : List String) (v : JValue) (m : WireMessage),
        m ∈ sendSavantUpdate c eid ps "brightness" v →
        m.attrValue =
          (match v with
           | JValue.num n => if n = 1 ∨ n = 2 then "3" else toString n
           | w => goFormat w)) ∧
    (∀ (data : List (String × JValue)) (k : String) (v : JValue),
        (k, v) ∈ data → (k ++ ":" ++ goFormat v) ∈ mergedAttrs data) := by
  constructor
  · intro c eid ps v m h
    unfold sendSavantUpdate at h
    split at h
    · simp at h
    · simp only [List.mem_singleton] at h
      subst h
      cases v with
      | num n =>
          show goFormat (if ("brightness" : String) = "brightness" then
              (if n = 1 ∨ n = 2 then JValue.num 3 else JValue.num n) else JValue.num n) =
            (if n = 1 ∨ n = 2 then "3" else toString n)
          rw [if_pos rfl]
          by_cases h12 : n = 1 ∨ n = 2
          · rw [if_pos h12, if_pos h12]; rfl
          · rw [if_neg h12, if_neg h12]; rfl
      | null => rfl
      | bool b => rfl
      | str s => rfl
      | arr xs => rfl
      | obj kvs => rfl
  · intro data k v h
    exact List.mem_map_of_mem _ h

/-- Witness for C2_brightness_clamp: raw brightness 2 is emitted as "3"
while the merged entry keeps the raw rendering "brightness:2". -/
theorem C2_brightness_clamp_witness :
    (({ entityId := "e", substituteId := "", parents := [], attrName := "brightness",
        attrValue := "3" } : WireMessage).attrValue =
      (match JValue.num 2 with
       | JValue.num n => if n = 1 ∨ n = 2 then "3" else toString n
       | w => goFormat w)) ∧
    ("brightness" ++ ":" ++ goFormat (JValue.num 2)) ∈
      mergedAttrs [("brightness", JValue.num 2)] := by
  constructor
  · exact C2_brightness_clamp.1 NewClient "e" [] (JValue.num 2) _
      (List.mem_singleton.2 rfl)
  · exact C2_brightness_clamp.2 [("brightness", JValue.num 2)] "brightness"
      (JValue.num 2) (List.mem_singleton.2 rfl)

/-! ## Claim C10 -/

/-- Claim C10: the brightness legacy transform applies only to JSON
numbers — a string-valued brightness (for example "1" or "2") is emitted
verbatim, never replaced by 3. -/
theorem C10_brightness_string (c : Client) (eid : String) (ps : List String)
    (s : String) (m : WireMessage)
    (h : m ∈ sendSavantUpdate c eid ps "brightness" (JValue.str s)) :
    m.attrValue = s := by
  unfold sendSavantUpdate at h
  split at h
  · simp at h
  · simp only [List.mem_singleton] at h
    subst h
    rfl

/-- Witness for C10_brightness_string: the string "1" passes through
unchanged. -/
theorem C10_brightness_string_witness :
    ({ entityId := "e", substituteId := "", parents := [], attrName := "brightness",
       attrValue := "1" } : WireMessage).attrValue = "1" :=
  C10_brightness_string NewClient "e" [] "1" _ (List.mem_singleton.2 rfl)

/-! ## Claim C3 -/

/-- Claim C3: after a `substitute_ids` command registering the pairs
(a1,e1),(a2,e2), resolving the alias a1 yields the entity e1 and the
reverse lookup of e1 yields a1; after a second `substitute_ids` command
with a pair set disjoint from the first, every prior mapping is gone:
a1 resolves to itself and the reverse lookup of e1 is the empty string. -/
theorem C3_alias_bijection (c : Client) (line1 line2 a1 e1 a2 e2 b1 f1 b2 f2 : String)
    (hp1 : goSplit ',' line1 = ["substitute_ids", a1, e1, a2, e2])
    (hp2 : goSplit ',' line2 = ["substitute_ids", b1, f1, b2, f2])
    (h12 : e1 ≠ e2) (ha12 : a1 ≠ a2) (hff : f1 ≠ f2) (hbb : b1 ≠ b2)
    (hf1 : e1 ≠ f1) (hf2 : e1 ≠ f2) (hb1 : a1 ≠ b1) (hb2 : a1 ≠ b2) :
    ResolveID (handleCommand c line1).1 a1 = e1 ∧
    getSubstituteID (handleCommand c line1).1 e1 = a1 ∧
    ResolveID (handleCommand (handleCommand c line1).1 line2).1 a1 = a1 ∧
    getSubstituteID (handleCommand (handleCommand c line1).1 line2).1 e1 = "" := by
  refine ⟨?_, ?_, ?_, ?_⟩ <;>
    simp [handleCommand, hp1, hp2, buildSubs, buildSubsAux, SetSubstituteIDs,
      SubscribeEntities, SendCommand, ResolveID, getSubstituteID, insertKV, lookupA,
      List.find?, h12, ha12, hff, hbb, hf1, hf2, hb1, hb2,
      Ne.symm h12, Ne.symm ha12, Ne.symm hff, Ne.symm hbb,
      Ne.symm hf1, Ne.symm hf2, Ne.symm hb1, Ne.symm hb2]

/-- Witness for C3_alias_bijection at concrete aliases and entities. -/
theorem C3_alias_bijection_witness :
    ResolveID (handleCommand NewClient "substitute_ids,K1,light.a,K2,light.b").1 "K1" =
      "light.a" ∧
    getSubstituteID (handleCommand NewClient "substitute_ids,K1,light.a,K2,light.b").1
      "light.a" = "K1" ∧
    ResolveID (handleCommand (handleCommand NewClient
      "substitute_ids,K1,light.a,K2,light.b").1 "substitute_ids,K3,light.c,K4,light.d").1
      "K1" = "K1" ∧
    getSubstituteID (handleCommand (handleCommand NewClient
      "substitute_ids,K1,light.a,K2,light.b").1 "substitute_ids,K3,light.c,K4,light.d").1
      "light.a" = "" :=
  C3_alias_bijection NewClient "substitute_ids,K1,light.a,K2,light.b"
    "substitute_ids,K3,light.c,K4,light.d" "K1" "light.a" "K2" "light.b"
    "K3" "light.c" "K4" "light.d" rfl rfl
    (by decide) (by decide) (by decide) (by decide)
    (by decide) (by decide) (by decide) (by decide)

/-! ## Claim C4 -/

/-- Claim C4 (code bug): with `enable_generic_call_service` false in the
loaded configuration, a downstream `call_service` command still issues a
service-call request to the upstream link. The Go server retains no
reference to the flag (`NewServer` keeps only the whitelist) and the
`call_service` branch of `handleCommand` performs no check, so nothing is
dropped and no denial can occur — contradicting the claim (which matches
the Ruby reference, where `call_service` is guarded by
`GENERIC_ACTION_ACCESS`). -/
theorem C4_flag_not_consulted :
    (serverHandleCommand
        (NewServer 8080
          (LoadConfig "token"
            { clientIPWhitelist := "", enableGenericCallService := false,
              useTLS := false })
          NewClient)
        "call_service,light,turn_on,light.kitchen").2 =
      [{ id := 1,
         payload := Payload.callService "light" "turn_on" "light.kitchen" none }] := rfl

/-! ## Claim C5 -/

/-- Claim C5 (code bug): in the Go client there is no 2-second
response-timeout at all. While connected and authenticated, a 30s ticker
firing does send a ping, but silence afterwards — any sequence of events
that contains no read error — leaves the link state completely unchanged:
it never transitions to reconnecting. Only a socket read error triggers a
reconnect, contradicting the claimed keepalive transition (present in the
Ruby reference as `data_received_timeout` armed for 2s). -/
theorem C5_no_pong_timeout :
    (linkStep { connected := true, isAuth := true, reconnecting := false }
        LinkEvent.tick30).2 = true ∧
    ∀ (es : List LinkEvent), (∀ e ∈ es, e ≠ LinkEvent.readError) →
      (runLink { connected := true, isAuth := true, reconnecting := false }
          es).reconnecting = false := by
  have hgen : ∀ (es : List LinkEvent) (st : LinkState),
      (∀ e ∈ es, e ≠ LinkEvent.readError) → runLink st es = st := by
    intro es
    induction es with
    | nil => intro st _; rfl
    | cons e es ih =>
      intro st h
      cases e with
      | tick30 => exact ih st (fun x hx => h x (List.mem_cons_of_mem _ hx))
      | inbound => exact ih st (fun x hx => h x (List.mem_cons_of_mem _ hx))
      | readError => exact absurd rfl (h _ (List.mem_cons_self _ _))
  exact ⟨rfl, fun es h => by rw [hgen es _ h]⟩

/-- Witness for C5_no_pong_timeout: two pings and no reply of any kind,
yet the link is still not reconnecting. -/
theorem C5_no_pong_timeout_witness :
    (runLink { connected := true, isAuth := true, reconnecting := false }
        [LinkEvent.tick30, LinkEvent.tick30, LinkEvent.tick30]).reconnecting = false :=
  C5_no_pong_timeout.2 _ (by decide)

/-! ## Claim C6 -/

/-- The exact id trace of a run: ids continue from the client's counter,
one per send, regardless of interleaved reconnects. -/
theorem runActions_spec : ∀ (as : List ClientAction) (c : Client),
    (runActions c as).1.idCounter = c.idCounter + numSends as ∧
    (runActions c as).2 =
      (List.range (numSends as)).map (fun i : Nat => c.idCounter + (i : Int) + 1) := by
  intro as
  induction as with
  | nil => intro c; simp [runActions, numSends]
  | cons a as ih =>
    intro c
    cases a with
    | send p =>
      obtain ⟨h1, h2⟩ := ih { c with idCounter := c.idCounter + 1 }
      have hn : numSends (ClientAction.send p :: as) = numSends as + 1 := by
        simp [numSends, List.countP_cons]
      constructor
      · show (runActions { c with idCounter := c.idCounter + 1 } as).1.idCounter = _
        rw [h1, hn]
        push_cast
        ring
      · show (c.idCounter + 1) ::
            (runActions { c with idCounter := c.idCounter + 1 } as).2 = _
        rw [h2, hn, List.range_succ_eq_map, List.map_cons, List.map_map]
        refine congrArg₂ _ (by push_cast; ring) ?_
        refine List.map_congr_left ?_
        intro i _
        show c.idCounter + 1 + (i : Int) + 1 = c.idCounter + (i.succ : Int) + 1
        push_cast
        ring
    | reconnect =>
      obtain ⟨h1, h2⟩ := ih { c with isAuth := false }
      have hn : numSends (ClientAction.reconnect :: as) = numSends as := by
        simp [numSends, List.countP_cons]
      constructor
      · show (runActions { c with isAuth := false } as).1.idCounter = _
        rw [h1, hn]
      · show (runActions { c with isAuth := false } as).2 = _
        rw [h2, hn]

/-- Claim C6 (amended): from a fresh client, the ids assigned to sent
commands are strictly increasing across the entire client lifetime, and
the counter equals the total number of sends — it is never reset by a
reconnect (`connectLoop`/`cleanup` do not touch `idCounter`), so the
sequence does not restart at 1 after reconnecting. -/
theorem C6_ids_monotone (as : List ClientAction) :
    List.Pairwise (fun x y => x < y) (runActions NewClient as).2 ∧
    (runActions NewClient as).1.idCounter = (numSends as : Int) := by
  obtain ⟨h1, h2⟩ := runActions_spec as NewClient
  constructor
  · rw [h2]
    refine List.pairwise_map.2 ?_
    refine (List.pairwise_lt_range (numSends as)).imp ?_
    intro a b hab
    show NewClient.idCounter + a + 1 < NewClient.idCounter + b + 1
    simp only [NewClient]
    omega
  · rw [h1]
    simp [NewClient]

/-- Claim C6 counterexample: send, reconnect, send — the command sent
after the reconnect carries id 2, not 1: the id sequence does not restart
at 1 on reconnect. -/
theorem C6_counterexample :
    (runActions NewClient [ClientAction.send Payload.ping, ClientAction.reconnect,
        ClientAction.send Payload.ping]).2 = [1, 2] ∧ (2 : Int) ≠ 1 :=
  ⟨rfl, by decide⟩

/-! ## Claim C7 -/

/-- Claim C7 (code bug): `processMap` ranges over a Go
`map[string]interface{}`, whose iteration order is unspecified (and
deliberately randomized by the runtime), so flattening is not a function
of the StateEvent alone. The two association lists below are permutations
of each other — the same Go map value — yet flattening them produces
different byte sequences (different line order and a different
merged-attributes string). Neither byte-identical re-flattening nor
insertion-order traversal is guaranteed, contradicting the claim (the
Ruby reference iterates a Ruby `Hash`, which does preserve insertion
order). -/
theorem C7_order_dependent :
    List.Perm [("a", JValue.num 1), ("b", JValue.num 2)]
      [("b", JValue.num 2), ("a", JValue.num 1)] ∧
    (flattenAndSend NewClient
        { entityId := "e", state := none,
          attributes := some [("a", JValue.num 1), ("b", JValue.num 2)] }).map
        renderWire ≠
      (flattenAndSend NewClient
        { entityId := "e", state := none,
          attributes := some [("b", JValue.num 2), ("a", JValue.num 1)] }).map
        renderWire := by
  constructor
  · exact List.Perm.swap _ _ _
  · have h1 : (flattenAndSend NewClient
        { entityId := "e", state := none,
          attributes := some [("a", JValue.num 1), ("b", JValue.num 2)] }).map
        renderWire =
        ["entity_id=e&substitute_id=&parent_keys=attributes_a&attr_name=a&attr_value=1\n",
         "entity_id=e&substitute_id=&parent_keys=attributes_b&attr_name=b&attr_value=2\n",
         "entity_id=e&substitute_id=&parent_keys=attributes_attributes&attr_name=e&attr_value=a:1,b:2\n"] := by
      simp only [flattenAndSend, processMap, processPairs]
      rfl
    have h2 : (flattenAndSend NewClient
        { entityId := "e", state := none,
          attributes := some [("b", JValue.num 2), ("a", JValue.num 1)] }).map
        renderWire =
        ["entity_id=e&substitute_id=&parent_keys=attributes_b&attr_name=b&attr_value=2\n",
         "entity_id=e&substitute_id=&parent_keys=attributes_a&attr_name=a&attr_value=1\n",
         "entity_id=e&substitute_id=&parent_keys=attributes_attributes&attr_name=e&attr_value=b:2,a:1\n"] := by
      simp only [flattenAndSend, processMap, processPairs]
      rfl
    rw [h1, h2]
    decide

/-! ## Claim C8 -/

/-- Claim C8: on accepting a downstream TCP connection, an empty
allow-list admits every peer; a non-empty allow-list that does not
contain the peer IP rejects the connection — the peer is never registered
in `clients`, and since all socket writes go through `Broadcast` over
`clients`, zero bytes are ever written to it. -/
theorem C8_whitelist (s : Server) (ip : String) (connId : Nat) (msg : String) :
    (s.whitelist = [] → (handleConnection s connId ip).2 = true) ∧
    (s.whitelist ≠ [] → ip ∉ s.whitelist →
      (handleConnection s connId ip).2 = false ∧
      (handleConnection s connId ip).1 = s ∧
      (connId ∉ s.clients →
        ∀ p ∈ Broadcast (handleConnection s connId ip).1.clients msg,
          p.1 ≠ connId)) := by
  constructor
  · intro h
    unfold handleConnection allowedIP
    rw [h]
    simp
  · intro hwl hip
    have hallow : allowedIP s.whitelist ip = false := by
      unfold allowedIP
      rw [if_neg hwl]
      simpa using hip
    have hrej : handleConnection s connId ip = (s, false) := by
      unfold handleConnection
      rw [hallow]
      rfl
    refine ⟨by rw [hrej], by rw [hrej], ?_⟩
    intro hc p hp
    rw [hrej] at hp
    simp only [Broadcast, List.mem_map] at hp
    obtain ⟨cid, hcid, rfl⟩ := hp
    intro heq
    exact hc (heq ▸ hcid)

/-- Witness for C8_whitelist: the empty allow-list admits, a non-empty
one without the peer IP rejects without registering, and no broadcast
write ever targets the rejected connection. -/
theorem C8_whitelist_witness :
    (handleConnection ⟨8080, [], [7], NewClient⟩ 3 "10.0.0.2").2 = true ∧
    (handleConnection ⟨8080, ["10.0.0.1"], [7], NewClient⟩ 3 "10.0.0.2").2 = false ∧
    (∀ p ∈ Broadcast
        (handleConnection ⟨8080, ["10.0.0.1"], [7], NewClient⟩ 3 "10.0.0.2").1.clients
        "line",
      p.1 ≠ 3) := by
  have ha := C8_whitelist ⟨8080, [], [7], NewClient⟩ "10.0.0.2" 3 "line"
  have hb := C8_whitelist ⟨8080, ["10.0.0.1"], [7], NewClient⟩ "10.0.0.2" 3 "line"
  obtain ⟨h1, h2, h3⟩ := hb.2 (by decide) (by decide)
  exact ⟨ha.1 rfl, h1, h3 (by decide)⟩

/-! ## Claim C9 -/

/-- A connection registered exactly once receives nothing from a
broadcast of one message unless it is registered — and exactly that
message when it is. -/
theorem writesTo_broadcast_count_one (clients : List Nat) (l : String) (cid : Nat)
    (h : clients.count cid = 1) :
    writesTo (Broadcast clients l) cid = [l] := by
  induction clients with
  | nil => simp at h
  | cons x xs ih =>
    by_cases hx : x = cid
    · subst hx
      have hxs : xs.count x = 0 := by
        simp [List.count_cons] at h
        omega
      have hnot : x ∉ xs := List.count_eq_zero.1 hxs
      have hrest : writesTo (Broadcast xs l) x = [] := by
        clear h hxs ih
        induction xs with
        | nil => rfl
        | cons y ys ihy =>
          have hy : y ≠ x := fun hc => hnot (hc ▸ List.mem_cons_self _ _)
          simp only [Broadcast, List.map_cons, writesTo, List.filterMap_cons] at *
          rw [if_neg hy]
          exact ihy (fun hc => hnot (List.mem_cons_of_mem _ hc))
      simp only [Broadcast, List.map_cons, writesTo, List.filterMap_cons, if_pos rfl]
      simpa [writesTo, Broadcast] using hrest
    · have hxs : xs.count cid = 1 := by
        simp [List.count_cons, hx] at h
        omega
      simp only [Broadcast, List.map_cons, writesTo, List.filterMap_cons, if_neg hx]
      simpa [writesTo, Broadcast] using ih hxs

/-- For one upstream event, a connection registered exactly once receives
exactly the event's rendered lines, in order. -/
theorem writesTo_eventWrites (s : Server) (ev : StateEvent) (cid : Nat)
    (h : s.clients.count cid = 1) :
    writesTo (eventWrites s ev) cid = eventLines s ev := by
  unfold eventWrites
  generalize eventLines s ev = lines
  induction lines with
  | nil => rfl
  | cons l ls ih =>
    rw [List.flatMap_cons]
    unfold writesTo at *
    rw [List.filterMap_append]
    have hone := writesTo_broadcast_count_one s.clients l cid h
    unfold writesTo at hone
    rw [hone, ih]
    rfl

/-- Claim C9 (amended): the AttributeFilter is a single piece of state on
the one shared upstream client, not per-session state. A `state_filter`
command arriving on any session replaces that shared filter wholesale
(empty token list ⇒ ["all"]), and the lines subsequently emitted to
every registered session — including every other session — are computed
with the new filter. -/
theorem C9_shared_filter (s : Server) (line : String) (tokens : List String)
    (ev : StateEvent) (cid : Nat)
    (hparse : goSplit ',' line = "state_filter" :: tokens)
    (hcount : s.clients.count cid = 1) :
    (serverHandleCommand s line).1.haClient.filter =
      (if tokens = [] then ["all"] else tokens) ∧
    writesTo (eventWrites (serverHandleCommand s line).1 ev) cid =
      (flattenAndSend (SetFilter s.haClient tokens) ev).map renderWire := by
  have hstep : (serverHandleCommand s line).1 =
      { s with haClient := SetFilter s.haClient tokens } := by
    simp [serverHandleCommand, handleCommand, hparse]
  constructor
  · rw [hstep]
    by_cases ht : tokens = [] <;> simp [SetFilter, ht]
  · rw [hstep]
    exact writesTo_eventWrites { s with haClient := SetFilter s.haClient tokens }
      ev cid (by simpa using hcount)

/-- Claim C9 counterexample: with two registered sessions, a
`state_filter` command handled by the server (the Go dispatcher has no
session parameter at all) changes the lines that the *other* session
subsequently receives for the same state event — from the state line to
nothing — refuting "every other session's emitted lines are unchanged". -/
theorem C9_counterexample :
    writesTo (eventWrites ⟨8080, [], [1, 2], NewClient⟩
      { entityId := "e", state := some (JValue.str "on"), attributes := none }) 2 ≠
    writesTo (eventWrites
      (serverHandleCommand ⟨8080, [], [1, 2], NewClient⟩ "state_filter,none_such").1
      { entityId := "e", state := some (JValue.str "on"), attributes := none }) 2 := by
  decide

/-- Witness for C9_shared_filter at a concrete two-session server. -/
theorem C9_shared_filter_witness :
    (serverHandleCommand ⟨8080, [], [1, 2], NewClient⟩
        "state_filter,brightness").1.haClient.filter = ["brightness"] ∧
    writesTo (eventWrites
      (serverHandleCommand ⟨8080, [], [1, 2], NewClient⟩ "state_filter,brightness").1
      { entityId := "e", state := some (JValue.str "on"), attributes := none }) 2 =
      (flattenAndSend (SetFilter NewClient ["brightness"])
        { entityId := "e", state := some (JValue.str "on"),
          attributes := none }).map renderWire := by
  have h := C9_shared_filter ⟨8080, [], [1, 2], NewClient⟩
    "state_filter,brightness" ["brightness"]
    { entityId := "e", state := some (JValue.str "on"), attributes := none } 2
    rfl (by decide)
  exact ⟨h.1, h.2⟩

end Bridge
